import Mathlib

/-!
# chainline-js — verification of the codec / wallet / transaction core

Shallow embedding of the chainline-js core (a fork of the Neon wallet JS
SDK).  The JavaScript code works on hex strings throughout; the embedding
keeps that representation: a byte string is a lowercase hex `String`, a
byte array is a `List Nat` of values below 256, and JS `number`s are
modelled as `Nat`/`Int`/`ℚ` (every theorem stays on inputs where the JS
floating-point arithmetic is exact, noted where it matters).

External cryptographic and encoding capabilities (SHA-256, RIPEMD-160,
the secp256r1 curve operations of `ecurve`/`elliptic`, base58 of `base-x`)
are not part of the repository and are treated as an abstract environment
`CryptoEnv` of total functions, exactly as the spec declares them
("consumed as a trusted capability").

Sources embedded:
* `src/unnamed/part_002` — `utils.js` (hex helpers, `num2hexstring`,
  `num2fixed8`, `fixed82num`, `num2VarInt`, `reverseHex`, `StringStream`,
  `gasCostCeil`, `fixed8GasCeil`) and `transactions/index.js`
  (`serializeTransaction`, `deserializeTransaction`, `signTransaction`,
  `getTransactionHash`).
* `src/src/wallet.js` — `createChainLineWalletScript`, `getHash`,
  `getAccountFromPublicKey`, `getAccountFromPrivateKey`,
  `getPrivateKeyFromWIF`, `toAddress`, `addressToScriptHash`,
  `verifyPublicKeyEncoded`, `signatureData`.
* `transactions/components.js` / `transactions/exclusive.js` are not under
  `src/`; their (de)serializers are modelled from the spec (§3, §4.4) and
  marked `Modelled from the spec:` below.
-/

/-! ## Hex primitives (utils.js) -/

/-- The sixteen lowercase hex digits, the alphabet of every wire string
(codepoints 48–57 and 97–102). -/
def lhexDigits : List Char :=
  (List.range 10).map (fun n => Char.ofNat (48 + n)) ++
    (List.range 6).map (fun n => Char.ofNat (97 + n))

/-- `s` consists only of lowercase hex digits. -/
def IsLowerHex (s : String) : Prop := ∀ c ∈ s.data, c ∈ lhexDigits

instance (s : String) : Decidable (IsLowerHex s) := by
  unfold IsLowerHex; infer_instance

/-- Numeric value of one hex digit, as JS `parseInt` sees it.  `parseInt`
yields `NaN` on a non-digit; that case is modelled as 0 and every theorem
that parses guards its input with `IsLowerHex` (or values below 256), so
the junk value is never reached. -/
def hexVal (c : Char) : Nat :=
  if 48 ≤ c.toNat ∧ c.toNat ≤ 57 then c.toNat - 48
  else if 97 ≤ c.toNat ∧ c.toNat ≤ 102 then c.toNat - 87
  else if 65 ≤ c.toNat ∧ c.toNat ≤ 70 then c.toNat - 55
  else 0

/-- JS `parseInt(s, 16)` on a valid hex string. -/
def parseHexNat (s : String) : Nat :=
  s.data.foldl (fun a c => 16 * a + hexVal c) 0

/-- JS `Number.prototype.toString(16)` for a non-negative integer:
lowercase hex digits, most significant first, `"0"` for zero. -/
def natToHexJS (n : Nat) : String := ⟨Nat.toDigits 16 n⟩

/-- JS `toString(16)` on an `Int` (negative values render with a leading
minus sign, exactly as in JS). -/
def intToHexJS (n : Int) : String :=
  if n < 0 then "-" ++ natToHexJS n.natAbs else natToHexJS n.toNat

/-- One byte of `ab2hexstring` (utils.js): `toString(16)` left-padded to
two digits (`''`→`00`, one digit→`0`+digit). -/
def byteHex (n : Nat) : String :=
  let str := natToHexJS n
  if str.length = 0 then "00" else if str.length = 1 then "0" ++ str else str

/-- utils.js `ab2hexstring`: render a byte array as hex, byte by byte. -/
def ab2hexstring : List Nat → String
  | [] => ""
  | n :: rest => byteHex n ++ ab2hexstring rest

/-- utils.js `hexstring2ab` on the character list: consume two hex digits
per byte while at least two characters remain (a trailing odd character is
dropped, as in the JS `while (str.length >= 2)` loop). -/
def h2abL : List Char → List Nat
  | a :: b :: rest => (16 * hexVal a + hexVal b) :: h2abL rest
  | _ => []

/-- utils.js `hexstring2ab`. -/
def hexstring2ab (s : String) : List Nat := h2abL s.data

/-- utils.js `reverseHex` loop on the character list: emit the two-character
chunks in reverse order.  The JS function first throws on odd length; no
call site in the claims reaches an odd-length string, and the catch-all
branch below is never exercised there. -/
def reverseHexL : List Char → List Char
  | a :: b :: rest => reverseHexL rest ++ [a, b]
  | l => l

/-- utils.js `reverseHex`. -/
def reverseHex (hex : String) : String := ⟨reverseHexL hex.data⟩

/-- utils.js `num2hexstring(num, size)`: `toString(16)`, then
`('0'.repeat(size) + h).substring(h.length)` unless the digit count is
already a multiple of `size`.  Note the substring arithmetic silently
truncates a value whose digit count exceeds `size` without being a
multiple of it. -/
def num2hexstring (num : Nat) (size : Nat := 2) : String :=
  let hexstring := natToHexJS num
  if hexstring.length % size = 0 then hexstring
  else (String.mk (List.replicate size '0') ++ hexstring).drop hexstring.length

/-- JS `Math.round` (round half toward +∞) on an exact rational. -/
def jsRound (q : ℚ) : ℤ := ⌊q + 1 / 2⌋

/-- utils.js `num2fixed8`: `Math.round(num * 1e8).toString(16)`, left-pad
into the last 16 hex characters, then `reverseHex` to little-endian. -/
def num2fixed8 (num : ℚ) : String :=
  let hexValue := intToHexJS (jsRound (num * 100000000))
  reverseHex ((String.mk (List.replicate 16 '0') ++ hexValue).drop hexValue.length)

/-- utils.js `fixed82num`: parse the little-endian hex and divide by `1e8`. -/
def fixed82num (fixed8 : String) : ℚ :=
  (parseHexNat (reverseHex fixed8) : ℚ) / 100000000

/-- utils.js `num2VarInt`.  The last branch divides by `2^32` with JS float
division; it is exact precisely on multiples of `2^32`, the only points at
which the claims evaluate that branch, and is rendered here as `Nat`
division. -/
def num2VarInt (num : Nat) : String :=
  if num < 0xfd then num2hexstring num
  else if num ≤ 0xffff then "fd" ++ num2hexstring num 4
  else if num ≤ 0xffffffff then "fe" ++ num2hexstring num 8
  else "ff" ++ num2hexstring num 8 ++ num2hexstring (num / 2 ^ 32) 8

/-! ## StringStream (utils.js) -/

/-- utils.js `StringStream`: a hex string with a character pointer. -/
structure StringStream where
  str : String
  pter : Nat
deriving DecidableEq

/-- `StringStream.isEmpty`. -/
def StringStream.isEmpty (ss : StringStream) : Bool :=
  ss.str.length ≤ ss.pter

/-- `StringStream.read(bytes)`: throws (here `none`) when already empty,
otherwise returns `substr(pter, bytes*2)` — possibly shorter than asked
near the end of the stream, as in JS — and advances the pointer. -/
def StringStream.read (ss : StringStream) (bytes : Nat) :
    Option (String × StringStream) :=
  if ss.isEmpty then none
  else some (((ss.str.drop ss.pter).take (bytes * 2)), ⟨ss.str, ss.pter + bytes * 2⟩)

/-- `StringStream.readVarInt`: one marker byte, then an optional 2/4/8-byte
little-endian payload selected by marker `0xfd`/`0xfe`/`0xff`. -/
def StringStream.readVarInt (ss : StringStream) : Option (Nat × StringStream) := do
  let (h, ss) ← ss.read 1
  let len := parseHexNat h
  if len = 0xfd then
    let (x, ss) ← ss.read 2
    pure (parseHexNat (reverseHex x), ss)
  else if len = 0xfe then
    let (x, ss) ← ss.read 4
    pure (parseHexNat (reverseHex x), ss)
  else if len = 0xff then
    let (x, ss) ← ss.read 8
    pure (parseHexNat (reverseHex x), ss)
  else
    pure (len, ss)

/-- `StringStream.readVarBytes`. -/
def StringStream.readVarBytes (ss : StringStream) : Option (String × StringStream) := do
  let (n, ss) ← ss.readVarInt
  ss.read n

/-- Decode a VarInt from the start of a hex string (a fresh `StringStream`
as `readVarInt` is used by the deserializer). -/
def decodeVarInt (s : String) : Option Nat :=
  (StringStream.readVarInt ⟨s, 0⟩).map (·.1)

/-! ## Gas ceiling (utils, part_002 lines 872-893) -/

/-- JS `%` (remainder with the sign of the dividend); every use below has a
positive divisor. -/
def jsRem (a b : ℤ) : ℤ := if 0 ≤ a then a % b else -(-a % b)

/-- `fixed8GasCeil` on the already-rounded integer: round a Fixed8 integer
amount up to the next multiple of `1e8` (down for negative remainders). -/
def fixed8GasCeilInt (n : ℤ) : ℤ :=
  if n = 0 then 0
  else
    let remainder := jsRem n 100000000
    if remainder ≠ 0 then
      if remainder > 0 then n - remainder + 100000000 else n - remainder
    else n

/-- utils `fixed8GasCeil`: a `number` argument is first `Math.round`ed. -/
def fixed8GasCeil (fixed8GasCost : ℚ) : ℤ :=
  fixed8GasCeilInt (jsRound fixed8GasCost)

/-- utils `gasCostCeil`: scale to Fixed8, ceil to a whole-GAS multiple,
then `Math.floor` of the float division back down. -/
def gasCostCeil (gasCost : ℚ) : ℤ :=
  ⌊(fixed8GasCeil (gasCost * 100000000) : ℚ) / 100000000⌋

/-! ## Transaction data model (spec §3, transactions/index.js) -/

/-- A transaction attribute `{usage, data}` (spec §3); `data` is hex. -/
structure TxAttribute where
  usage : Nat
  data : String
deriving DecidableEq

/-- A transaction input / claimed-coin reference `{prevHash, prevIndex}`;
`prevHash` is the 32-byte previous transaction id, stored big-endian. -/
structure TxInput where
  prevHash : String
  prevIndex : Nat
deriving DecidableEq

/-- A transaction output `{assetId, value, scriptHash}`; `value` is the
Fixed8 amount as an exact rational. -/
structure TxOutput where
  assetId : String
  value : ℚ
  scriptHash : String
deriving DecidableEq

/-- A witness `{invocationScript, verificationScript}` (hex scripts). -/
structure Witness where
  invocationScript : String
  verificationScript : String
deriving DecidableEq

/-- A transaction as built by `create.*` and consumed by
`serializeTransaction`.  JS objects have optional keys: an absent
`scripts` array and absent kind-exclusive fields are `none`.
Type discriminants: 2 = claim, 128 = asset transfer (contract),
209 = invocation. -/
structure Transaction where
  type : Nat
  version : Nat
  attributes : List TxAttribute
  inputs : List TxInput
  outputs : List TxOutput
  scripts : Option (List Witness)
  claims : Option (List TxInput)
  script : Option String
  gas : Option ℚ
deriving DecidableEq

/-- One element of the `inputs` array built by `deserializeTransaction`:
the JS array is untyped, and the deserializer pushes parsed *attributes*
onto it as well as parsed inputs (part_002 line 830). -/
inductive InputItem where
  | attr (a : TxAttribute)
  | inp (i : TxInput)
deriving DecidableEq

/-- The object produced by `deserializeTransaction` (exclusive fields are
merged in by `Object.assign`; `scripts` is always an array). -/
structure DTransaction where
  type : Nat
  version : Nat
  attributes : List TxAttribute
  inputs : List InputItem
  outputs : List TxOutput
  scripts : List Witness
  claims : Option (List TxInput)
  script : Option String
  gas : Option ℚ
deriving DecidableEq

/-- The deserialized image a transaction is expected to round-trip to:
same fields, inputs injected into the untyped array, an absent `scripts`
key read back as the empty array.  This is the identity the spec's
round-trip property compares against. -/
def toD (t : Transaction) : DTransaction :=
  { type := t.type
    version := t.version
    attributes := t.attributes
    inputs := t.inputs.map InputItem.inp
    outputs := t.outputs
    scripts := t.scripts.getD []
    claims := t.claims
    script := t.script
    gas := t.gas }

/-! ## Component serializers.

Modelled from the spec: `transactions/components.js` is not under `src/`;
the spec gives the sub-structures (§3) and the wire conventions (§4.1:
multi-byte integers little-endian on the wire, big-endian ids reversed for
the wire, VarInt length prefixes; §4.4).  Each deserializer mirrors its
serializer exactly. -/

/-- Modelled from the spec: attribute = usage byte, then VarInt-prefixed
data bytes. -/
def serializeTransactionAttribute (attr : TxAttribute) : String :=
  num2hexstring attr.usage ++ num2VarInt (attr.data.length / 2) ++ attr.data

/-- Modelled from the spec: input = 32-byte previous-tx id reversed to
little-endian, then 2-byte little-endian output index. -/
def serializeTransactionInput (input : TxInput) : String :=
  reverseHex input.prevHash ++ reverseHex (num2hexstring input.prevIndex 4)

/-- Modelled from the spec: output = 32-byte asset id reversed to
little-endian, Fixed8 value, 20-byte script hash (stored little-endian). -/
def serializeTransactionOutput (output : TxOutput) : String :=
  reverseHex output.assetId ++ num2fixed8 output.value ++ output.scriptHash

/-- Modelled from the spec: witness = VarInt-prefixed invocation script,
then VarInt-prefixed verification script. -/
def serializeWitness (witness : Witness) : String :=
  num2VarInt (witness.invocationScript.length / 2) ++ witness.invocationScript ++
    num2VarInt (witness.verificationScript.length / 2) ++ witness.verificationScript

/-- Modelled from the spec: mirrors `serializeTransactionAttribute`. -/
def deserializeTransactionAttribute (ss : StringStream) :
    Option (TxAttribute × StringStream) := do
  let (u, ss) ← ss.read 1
  let (d, ss) ← ss.readVarBytes
  pure (⟨parseHexNat u, d⟩, ss)

/-- Modelled from the spec: mirrors `serializeTransactionInput`. -/
def deserializeTransactionInput (ss : StringStream) :
    Option (TxInput × StringStream) := do
  let (h, ss) ← ss.read 32
  let (i, ss) ← ss.read 2
  pure (⟨reverseHex h, parseHexNat (reverseHex i)⟩, ss)

/-- Modelled from the spec: mirrors `serializeTransactionOutput`. -/
def deserializeTransactionOutput (ss : StringStream) :
    Option (TxOutput × StringStream) := do
  let (a, ss) ← ss.read 32
  let (v, ss) ← ss.read 8
  let (sh, ss) ← ss.read 20
  pure (⟨reverseHex a, fixed82num v, sh⟩, ss)

/-- Modelled from the spec: mirrors `serializeWitness`. -/
def deserializeWitness (ss : StringStream) : Option (Witness × StringStream) := do
  let (inv, ss) ← ss.readVarBytes
  let (ver, ss) ← ss.readVarBytes
  pure (⟨inv, ver⟩, ss)

/-- Read `n` successive items with a component deserializer (the
`for (let i = 0; i < n; i++) push(...)` loops of `deserializeTransaction`). -/
def readList {α : Type} (f : StringStream → Option (α × StringStream)) :
    Nat → StringStream → Option (List α × StringStream)
  | 0, ss => some ([], ss)
  | n + 1, ss => do
    let (a, ss) ← f ss
    let (l, ss) ← readList f n ss
    pure (a :: l, ss)

/-- Kind-exclusive fields recovered by `deserialize.exclusiveData`. -/
structure ExclusiveData where
  claims : Option (List TxInput)
  script : Option String
  gas : Option ℚ
deriving DecidableEq

/-- Modelled from the spec (§4.4): Claim (type 2) carries a VarInt-prefixed
list of claimed coin references; AssetTransfer (128) no extra payload;
Invocation (209) a VarInt-prefixed bytecode blob, then a Fixed8 fee when
`version ≥ 1` (the fee field is absent on the earliest version).  An
unknown discriminant fails (`serialize.exclusiveData[tx.type]` is
undefined in JS). -/
def exclusiveSerialize (tx : Transaction) : Option String :=
  if tx.type = 2 then
    match tx.claims with
    | some cl =>
        some ((cl.map serializeTransactionInput).foldl (· ++ ·) (num2VarInt cl.length))
    | none => none
  else if tx.type = 128 then some ""
  else if tx.type = 209 then
    match tx.script with
    | some sc =>
        if tx.version ≥ 1 then
          match tx.gas with
          | some g => some (num2VarInt (sc.length / 2) ++ sc ++ num2fixed8 g)
          | none => none
        else some (num2VarInt (sc.length / 2) ++ sc)
    | none => none
  else none

/-- Modelled from the spec: mirrors `exclusiveSerialize`. -/
def exclusiveDeserialize (type version : Nat) (ss : StringStream) :
    Option (ExclusiveData × StringStream) :=
  if type = 2 then do
    let (n, ss) ← ss.readVarInt
    let (cl, ss) ← readList deserializeTransactionInput n ss
    pure (⟨some cl, none, none⟩, ss)
  else if type = 128 then pure (⟨none, none, none⟩, ss)
  else if type = 209 then do
    let (sc, ss) ← ss.readVarBytes
    if version ≥ 1 then do
      let (v, ss) ← ss.read 8
      pure (⟨none, some sc, some (fixed82num v)⟩, ss)
    else
      pure (⟨none, some sc, none⟩, ss)
  else none

/-! ## serializeTransaction / deserializeTransaction
(transactions/index.js, part_002 lines 787-847) -/

/-- transactions/index.js `serializeTransaction(tx, signed)`: type and
version bytes, kind-exclusive payload, VarInt-prefixed attribute, input
and output lists, and — only when `signed` and a non-empty `scripts`
array exists — the VarInt-prefixed witness list. -/
def serializeTransaction (tx : Transaction) (signed : Bool := true) :
    Option String :=
  match exclusiveSerialize tx with
  | none => none
  | some ex =>
    let out := num2hexstring tx.type ++ num2hexstring tx.version ++ ex
      ++ (tx.attributes.map serializeTransactionAttribute).foldl (· ++ ·)
           (num2VarInt tx.attributes.length)
      ++ (tx.inputs.map serializeTransactionInput).foldl (· ++ ·)
           (num2VarInt tx.inputs.length)
      ++ (tx.outputs.map serializeTransactionOutput).foldl (· ++ ·)
           (num2VarInt tx.outputs.length)
    match tx.scripts with
    | some l =>
        if signed ∧ 0 < l.length then
          some (out ++ (l.map serializeWitness).foldl (· ++ ·) (num2VarInt l.length))
        else some out
    | none => some out

/-- transactions/index.js `deserializeTransaction(data)`.  Note the loop
over the attribute count pushes each parsed attribute onto `tx.inputs`
(part_002 line 830: `tx.inputs.push(deserialize.attribute(ss))`), leaving
`tx.attributes` as the empty array it was initialised to; the embedding
reproduces that faithfully.  Witness parsing is skipped when the stream is
exhausted. -/
def deserializeTransaction (data : String) : Option DTransaction := do
  let ss : StringStream := ⟨data, 0⟩
  let (t, ss) ← ss.read 1
  let type := parseHexNat t
  let (v, ss) ← ss.read 1
  let version := parseHexNat v
  let (ex, ss) ← exclusiveDeserialize type version ss
  let (attrLength, ss) ← ss.readVarInt
  let (attrs, ss) ← readList deserializeTransactionAttribute attrLength ss
  let (inputLength, ss) ← ss.readVarInt
  let (ins, ss) ← readList deserializeTransactionInput inputLength ss
  let (outputLength, ss) ← ss.readVarInt
  let (outs, ss) ← readList deserializeTransactionOutput outputLength ss
  let (scripts, _) ←
    if ss.isEmpty then pure (([] : List Witness), ss)
    else do
      let (scriptLength, ss) ← ss.readVarInt
      readList deserializeWitness scriptLength ss
  pure { type := type
         version := version
         attributes := []
         inputs := attrs.map InputItem.attr ++ ins.map InputItem.inp
         outputs := outs
         scripts := scripts
         claims := ex.claims
         script := ex.script
         gas := ex.gas }

/-! ## Hex lemmas -/

theorem hexVal_lt (c : Char) : hexVal c < 16 := by
  unfold hexVal
  split
  · next h => omega
  · split
    · next h => omega
    · split
      · next h => omega
      · omega

set_option maxRecDepth 4096 in
theorem byteHex_pair_all :
    lhexDigits.all (fun a => lhexDigits.all (fun b =>
      byteHex (16 * hexVal a + hexVal b) == String.mk [a, b])) = true := by decide

set_option maxRecDepth 4096 in
theorem byteHex_byte_all :
    (List.range 256).all (fun n =>
      ((byteHex n).data.length == 2) &&
      (h2abL (byteHex n).data == [n]) &&
      ((byteHex n).data.all (fun c => decide (c ∈ lhexDigits)))) = true := by decide

theorem byteHex_of_digits {a b : Char} (ha : a ∈ lhexDigits) (hb : b ∈ lhexDigits) :
    byteHex (16 * hexVal a + hexVal b) = String.mk [a, b] := by
  have h := byteHex_pair_all
  rw [List.all_eq_true] at h
  have h2 := h a ha
  rw [List.all_eq_true] at h2
  exact eq_of_beq (h2 b hb)

theorem byteHex_spec {n : Nat} (hn : n < 256) :
    (byteHex n).data.length = 2 ∧ h2abL (byteHex n).data = [n] ∧
      ∀ c ∈ (byteHex n).data, c ∈ lhexDigits := by
  have h := byteHex_byte_all
  rw [List.all_eq_true] at h
  have h2 := h n (List.mem_range.mpr hn)
  simp only [Bool.and_eq_true, beq_iff_eq, List.all_eq_true,
    decide_eq_true_eq] at h2
  exact ⟨h2.1.1, h2.1.2, h2.2⟩

theorem string_mk_append (l1 l2 : List Char) :
    String.mk l1 ++ String.mk l2 = String.mk (l1 ++ l2) := rfl

theorem data_append (s t : String) : (s ++ t).data = s.data ++ t.data := rfl

theorem ab2_append (l1 l2 : List Nat) :
    ab2hexstring (l1 ++ l2) = ab2hexstring l1 ++ ab2hexstring l2 := by
  induction l1 with
  | nil => simp [ab2hexstring]
  | cons n rest ih => simp [ab2hexstring, ih, String.append_assoc]

theorem parse_back {l : List Nat} (h : ∀ b ∈ l, b < 256) :
    h2abL (ab2hexstring l).data = l := by
  induction l with
  | nil => rfl
  | cons n rest ih =>
    have hn := byteHex_spec (h n (by simp))
    obtain ⟨c1, c2, hc⟩ := List.length_eq_two.mp hn.1
    have hparse := hn.2.1
    rw [hc] at hparse
    simp only [h2abL] at hparse
    have : (ab2hexstring (n :: rest)).data = c1 :: c2 :: (ab2hexstring rest).data := by
      show (byteHex n ++ ab2hexstring rest).data = _
      rw [data_append, hc]; rfl
    rw [this]
    simp only [h2abL]
    rw [ih (fun b hb => h b (by simp [hb]))]
    injection hparse with h1 _
    rw [h1]

theorem ab2_inj {l1 l2 : List Nat} (h1 : ∀ b ∈ l1, b < 256)
    (h2 : ∀ b ∈ l2, b < 256) (he : ab2hexstring l1 = ab2hexstring l2) :
    l1 = l2 := by
  rw [← parse_back h1, ← parse_back h2, he]

theorem h2abL_lt (l : List Char) : ∀ x ∈ h2abL l, x < 256 := by
  induction l using h2abL.induct with
  | case1 a b rest ih =>
    intro x hx
    simp only [h2abL, List.mem_cons] at hx
    rcases hx with h | h
    · have := hexVal_lt a; have := hexVal_lt b; omega
    · exact ih x h
  | case2 l h => intro x hx; simp [h2abL] at hx

theorem h2abL_length : ∀ (l : List Char), (h2abL l).length = l.length / 2
  | [] => by simp [h2abL]
  | [_] => by simp [h2abL]
  | a :: b :: rest => by
    simp only [h2abL, List.length_cons, h2abL_length rest]; omega

theorem ab2_h2ab : ∀ (l : List Char), (∀ c ∈ l, c ∈ lhexDigits) →
    2 ∣ l.length → ab2hexstring (h2abL l) = String.mk l
  | [], _, _ => rfl
  | [a], _, hl => absurd hl (by simp)
  | a :: b :: rest, hmem, hlen => by
    have ih := ab2_h2ab rest (fun c hc => hmem c (by simp [hc]))
      (by simpa using hlen)
    simp only [h2abL, ab2hexstring]
    rw [byteHex_of_digits (hmem a (by simp)) (hmem b (by simp)), ih,
      string_mk_append]
    rfl

theorem reverseHexL_eq : ∀ (l : List Char), (∀ c ∈ l, c ∈ lhexDigits) →
    2 ∣ l.length → String.mk (reverseHexL l) = ab2hexstring ((h2abL l).reverse)
  | [], _, _ => rfl
  | [a], _, hl => absurd hl (by simp)
  | a :: b :: rest, hmem, hlen => by
    have ih := reverseHexL_eq rest (fun c hc => hmem c (by simp [hc]))
      (by simpa using hlen)
    simp only [reverseHexL, h2abL, List.reverse_cons, ab2_append]
    rw [← string_mk_append, ih]
    congr 1
    simp only [ab2hexstring]
    rw [byteHex_of_digits (hmem a (by simp)) (hmem b (by simp))]
    exact (String.append_empty _).symm

theorem map_mod256 {l : List Nat} (h : ∀ b ∈ l, b < 256) :
    l.map (· % 256) = l := by
  induction l with
  | nil => rfl
  | cons n rest ih =>
    simp only [List.map_cons]
    rw [Nat.mod_eq_of_lt (h n (by simp)), ih (fun b hb => h b (by simp [hb]))]

/-! ## Gas ceiling lemmas -/

theorem fixed8GasCeilInt_eq {n : ℤ} (hn : 0 ≤ n) :
    fixed8GasCeilInt n = 100000000 * ⌈(n : ℚ) / 100000000⌉ := by
  have hdm : 100000000 * (n / 100000000) + n % 100000000 = n :=
    Int.ediv_add_emod n 100000000
  have hr0 : 0 ≤ n % 100000000 := Int.emod_nonneg n (by norm_num)
  have hrD : n % 100000000 < 100000000 := Int.emod_lt_of_pos n (by norm_num)
  unfold fixed8GasCeilInt jsRem
  by_cases h0 : n = 0
  · subst h0; norm_num
  · rw [if_neg h0, if_pos hn]
    by_cases hrz : n % 100000000 = 0
    · rw [if_neg (by simpa using hrz)]
      have hq : n = 100000000 * (n / 100000000) := by omega
      have : (n : ℚ) / 100000000 = ((n / 100000000 : ℤ) : ℚ) := by
        rw [hq]; push_cast
        rw [mul_comm, mul_div_assoc, div_self (by norm_num), mul_one]
        rw [← hq]
      rw [this, Int.ceil_intCast, ← hq]
    · rw [if_pos (by simpa using hrz), if_pos (by omega)]
      have hcast : (n : ℚ) = 100000000 * ((n / 100000000 : ℤ) : ℚ)
          + ((n % 100000000 : ℤ) : ℚ) := by exact_mod_cast hdm.symm
      have hceil : ⌈(n : ℚ) / 100000000⌉ = n / 100000000 + 1 := by
        rw [Int.ceil_eq_iff]
        constructor
        · rw [lt_div_iff₀ (by norm_num : (0:ℚ) < 100000000)]
          push_cast
          rw [hcast]
          have : (0:ℚ) < ((n % 100000000 : ℤ) : ℚ) := by exact_mod_cast by omega
          nlinarith
        · rw [div_le_iff₀ (by norm_num : (0:ℚ) < 100000000)]
          push_cast
          rw [hcast]
          have : ((n % 100000000 : ℤ) : ℚ) ≤ 100000000 := by
            exact_mod_cast le_of_lt hrD
          nlinarith
      rw [hceil]; omega

theorem gasCostCeil_eq {g : ℚ} (hg : 0 ≤ g) :
    gasCostCeil g = ⌈(jsRound (g * 100000000) : ℚ) / 100000000⌉ := by
  unfold gasCostCeil fixed8GasCeil
  have hn : 0 ≤ jsRound (g * 100000000) := by
    unfold jsRound
    exact Int.floor_nonneg.mpr (by positivity)
  rw [fixed8GasCeilInt_eq hn]
  have : ((100000000 * ⌈(jsRound (g * 100000000) : ℚ) / 100000000⌉ : ℤ) : ℚ)
      / 100000000 = ((⌈(jsRound (g * 100000000) : ℚ) / 100000000⌉ : ℤ) : ℚ) := by
    push_cast
    rw [mul_comm, mul_div_assoc, div_self (by norm_num), mul_one]
  rw [this, Int.floor_intCast]

/-! ## Claims on the codec and fee primitives -/

/-- C2: each boundary value carries the documented marker (no marker below
`0xfd`, then `fd`/`fe`/`ff` with a 2-, 4- resp. 8-byte payload), but the
payload is written big-endian by `num2hexstring` while `readVarInt`
decodes it little-endian: the round trip only survives the palindromic
values `0xffff` and `0xffffffff` (and the marker-less ones) and returns
`0xfd00`, `0x100`, `0x100000000000000` for `0xfd`, `0x10000`,
`0x100000000` — the claimed lossless round trip fails. -/
theorem claim_C2_varint_boundary :
    num2VarInt 0x00 = "00" ∧ num2VarInt 0xfc = "fc" ∧
    num2VarInt 0xfd = "fd" ++ "00fd" ∧ num2VarInt 0xffff = "fd" ++ "ffff" ∧
    num2VarInt 0x10000 = "fe" ++ "00010000" ∧
    num2VarInt 0xffffffff = "fe" ++ "ffffffff" ∧
    num2VarInt 0x100000000 = "ff" ++ "00000000" ++ "00000001" ∧
    decodeVarInt (num2VarInt 0x00) = some 0x00 ∧
    decodeVarInt (num2VarInt 0xfc) = some 0xfc ∧
    decodeVarInt (num2VarInt 0xffff) = some 0xffff ∧
    decodeVarInt (num2VarInt 0xffffffff) = some 0xffffffff ∧
    decodeVarInt (num2VarInt 0xfd) = some 0xfd00 ∧ (0xfd00 : Nat) ≠ 0xfd ∧
    decodeVarInt (num2VarInt 0x10000) = some 0x100 ∧ (0x100 : Nat) ≠ 0x10000 ∧
    decodeVarInt (num2VarInt 0x100000000) = some 0x100000000000000 ∧
    (0x100000000000000 : Nat) ≠ 0x100000000 := by decide

/-- C8: the serializer does not report overflow: a value that does not fit
the requested fixed width is silently truncated.  `num2hexstring(256, 2)`
drops the high byte and returns `"00"`, and `num2fixed8` of `2^60` GAS
keeps only the last 16 hex digits of the Fixed8 value, producing a
16-character string that reads back as 0 rather than a failure. -/
theorem claim_C8_truncation :
    num2hexstring 256 2 = "00" ∧
    (num2fixed8 (2 ^ 60 : ℚ)).length = 16 ∧
    fixed82num (num2fixed8 (2 ^ 60 : ℚ)) ≠ (2 ^ 60 : ℚ) := by
  have h : jsRound ((2 ^ 60 : ℚ) * 100000000) = 115292150460684697600000000 := by
    norm_num [jsRound]
  have hzero : num2fixed8 (2 ^ 60 : ℚ) = String.mk (List.replicate 16 '0') := by
    unfold num2fixed8
    rw [h]
    decide
  refine ⟨by decide, ?_, ?_⟩
  · rw [hzero]; decide
  · rw [hzero]
    unfold fixed82num
    rw [show parseHexNat (reverseHex (String.mk (List.replicate 16 '0'))) = 0 from by decide]
    norm_num

/-- C5: `gasCostCeil 0.30000001 = 1`, `gasCostCeil 1 = 1`,
`gasCostCeil 0 = 0`, and for every non-negative GAS amount `g` the result
is `g` scaled to Fixed8 integer units (JS `Math.round` of `g·10^8`),
rounded up to the next multiple of `10^8`, then divided back down to a
whole GAS integer — the ceiling `⌈round(g·10^8) / 10^8⌉`. -/
theorem claim_C5_gasCostCeil :
    gasCostCeil (30000001 / 100000000) = 1 ∧ gasCostCeil 1 = 1 ∧
    gasCostCeil 0 = 0 ∧
    ∀ g : ℚ, 0 ≤ g →
      gasCostCeil g = ⌈(jsRound (g * 100000000) : ℚ) / 100000000⌉ := by
  refine ⟨?_, ?_, ?_, fun g hg => gasCostCeil_eq hg⟩
  · rw [gasCostCeil_eq (by norm_num)]
    norm_num [jsRound, Int.ceil_eq_iff]
  · rw [gasCostCeil_eq (by norm_num)]
    norm_num [jsRound]
  · rw [gasCostCeil_eq (by norm_num)]
    norm_num [jsRound]

/-- C5 witness: the general ceiling identity instantiated at the concrete
amount `g = 7/2` GAS (3.5 GAS costs 4 whole GAS). -/
theorem claim_C5_witness :
    (0 : ℚ) ≤ 7 / 2 ∧
      gasCostCeil (7 / 2) = ⌈(jsRound ((7 / 2) * 100000000) : ℚ) / 100000000⌉ :=
  ⟨by norm_num, claim_C5_gasCostCeil.2.2.2 (7 / 2) (by norm_num)⟩

/-! ## Claims on the transaction serializer -/

/-- C9: with an absent or empty witness array, the signed serialization is
byte-identical to the unsigned one — no witness count prefix is emitted. -/
theorem claim_C9_unsigned_eq (tx : Transaction)
    (h : tx.scripts = none ∨ tx.scripts = some []) :
    serializeTransaction tx true = serializeTransaction tx false := by
  unfold serializeTransaction
  rcases h with h | h
  · rw [h]
  · rw [h]; cases exclusiveSerialize tx <;> simp

/-- An asset-transfer transaction with no witnesses, used to instantiate
the signed/unsigned agreement. -/
def txNoScripts : Transaction := ⟨128, 0, [], [], [], none, none, none, none⟩

/-- C9 witness: the signed/unsigned agreement at a concrete witness-free
asset transfer. -/
theorem claim_C9_witness :
    serializeTransaction txNoScripts true = serializeTransaction txNoScripts false :=
  claim_C9_unsigned_eq txNoScripts (Or.inl rfl)

/-- An asset-transfer transaction carrying one attribute `{usage: 0, data:
0xabcd}` and nothing else: the input on which the deserializer misplaces
the attribute list. -/
def txOneAttr : Transaction :=
  ⟨128, 0, [⟨0, "abcd"⟩], [], [], some [], none, none, none⟩

/-- The object `deserializeTransaction` actually produces for
`serializeTransaction txOneAttr false`: the parsed attribute lands in
`inputs` and `attributes` stays empty. -/
def dOneAttr : DTransaction :=
  ⟨128, 0, [], [InputItem.attr ⟨0, "abcd"⟩], [], [], none, none, none⟩

/-- C1: the unsigned round trip fails as soon as the attribute list is
non-empty, because `deserializeTransaction` pushes each parsed attribute
onto `tx.inputs` (part_002 line 830) and leaves `tx.attributes` empty:
for the one-attribute transaction `txOneAttr` the deserialized image has
`attributes = []` and the attribute sitting in `inputs`, so it differs
from the expected image `toD txOneAttr` of the original transaction. -/
theorem claim_C1_deserialize_misplaces_attributes :
    serializeTransaction txOneAttr false = some "8000010002abcd0000" ∧
    deserializeTransaction "8000010002abcd0000" = some dOneAttr ∧
    dOneAttr.attributes = [] ∧ (toD txOneAttr).attributes = [⟨0, "abcd"⟩] ∧
    dOneAttr.inputs = [InputItem.attr ⟨0, "abcd"⟩] ∧ (toD txOneAttr).inputs = [] ∧
    deserializeTransaction "8000010002abcd0000" ≠ some (toD txOneAttr) := by decide

/-! ## Wallet (src/src/wallet.js) over an abstract crypto environment -/

/-- The external cryptographic and encoding capabilities the wallet
consumes (spec non-goals: "implementing elliptic-curve or hash primitives
from scratch ... they are consumed as a trusted capability").  Hash
functions take and return hex strings (CryptoJS `Hex.parse`/`toString`
round the digests); `getPublicKey` is the compressed secp256r1 point as a
byte array; `curveY31` is byte 31 of the decoded point's y-coordinate
(`curvePt.affineY.toBuffer(32)[31]` in `verifyPublicKeyEncoded`);
`ecSignR`/`ecSignS` are the ECDSA signature components over a digest and a
private key; `base58encode`/`base58decode` are `base-x` over byte arrays. -/
structure CryptoEnv where
  sha256 : String → String
  ripemd160 : String → String
  getPublicKey : String → List Nat
  curveY31 : String → Nat
  ecSignR : String → String → Nat
  ecSignS : String → String → Nat
  base58encode : List Nat → String
  base58decode : String → List Nat

/-- wallet.js `createChainLineWalletScript`: the fixed verification-script
template with the account's public key spliced in (hex literal copied
verbatim from the source). -/
def createChainLineWalletScript (publicKeyEncoded : String) : String :=
  "5fc56b6a51527ac46a51c34c097369676e61747572656175754c21" ++ publicKeyEncoded ++
    "6a52527ac44c20e72d286979ee6cb103e65dfddfb2e384100b8d148e7758" ++
    "de42e4168b71792c606a53527ac4616168164e656f2e52756e74696d652e" ++
    "4765745472696767657261619c5186009c630700006c75666a51c36a52c3" ++
    "61617c65ed01009e630800006c75666161682953797374656d2e45786563" ++
    "7574696f6e456e67696e652e476574536372697074436f6e7461696e6572" ++
    "6a54527ac46161682d53797374656d2e457865637574696f6e456e67696e" ++
    "652e476574457865637574696e67536372697074486173686a55527ac46a" ++
    "54c376009e630500616161681a4e656f2e5472616e73616374696f6e2e47" ++
    "65744f7574707574736a56527ac4006a5d527ac46a56c36a57527ac4006a" ++
    "58527ac46a58c36a57c3c0a26397006a57c36a58c3c36a59527ac46a59c3" ++
    "6a5a527ac46a5ac3616168184e656f2e4f75747075742e47657453637269" ++
    "7074486173686a55c3619c009c634c006a5ac3616168154e656f2e4f7574" ++
    "7075742e476574417373657449646a53c3619c009c6326006a5dc36a5ac3" ++
    "616168134e656f2e4f75747075742e47657456616c7565936a5d527ac461" ++
    "6a58c351936a58527ac46264ff616a5dc300948d00a1638b006a56c300c3" ++
    "616168184e656f2e4f75747075742e476574536372697074486173686a57" ++
    "527ac44c1377616c6c65745f7265717565737454784f757454c576006a51" ++
    "c3c476516a52c3c476526a57c3764c09726563697069656e74617575c476" ++
    "536a5dc361c461617c6730a2b04139d714564eb956896498616cf8acc8db" ++
    "6a58527ac46a58c36c7566516c75666153c56b6a00527ac46a51527ac46a" ++
    "00c36a51c361ac6c756661"

/-- wallet.js `getHash`: RIPEMD160 of SHA256 of the hex input. -/
def getHash (env : CryptoEnv) (signatureScript : String) : String :=
  env.ripemd160 (env.sha256 signatureScript)


/-- wallet.js `verifyPublicKeyEncoded`: first byte must be `0x02`/`0x03`
and must match the parity of the decoded point's y-coordinate (its last
byte is supplied by the environment). -/
def verifyPublicKeyEncoded (env : CryptoEnv) (publicKeyEncoded : String) : Bool :=
  match (hexstring2ab publicKeyEncoded).head? with
  | none => false
  | some b0 =>
    if b0 ≠ 0x02 ∧ b0 ≠ 0x03 then false
    else
      let y31 := env.curveY31 publicKeyEncoded
      (b0 = 0x02 ∧ y31 % 2 = 0) ∨ (b0 = 0x03 ∧ y31 % 2 = 1)

/-- The 25-byte address payload built by `toAddress`: version byte 23, the
20-byte program hash, and the first 4 checksum bytes of the double
SHA-256.  The JS `Uint8Array(25)` coerces entries mod 256 and keeps
0-padding where fewer than 4 checksum bytes exist; both are reproduced
(and are no-ops on the real byte inputs). -/
def addressBytes (env : CryptoEnv) (programHash : List Nat) : List Nat :=
  let data := (23 :: programHash).map (· % 256)
  let cksum :=
    ((hexstring2ab (env.sha256 (env.sha256 (ab2hexstring data)))).take 4).map (· % 256)
  data ++ cksum ++ List.replicate (4 - cksum.length) 0

/-- wallet.js `toAddress`: throws (`none`) unless the program hash is 20
bytes, otherwise base58-encodes the 25-byte payload. -/
def toAddress (env : CryptoEnv) (programHash : List Nat) : Option String :=
  if programHash.length ≠ 20 then none
  else some (env.base58encode (addressBytes env programHash))

/-- wallet.js `addressToScriptHash`: base58-decode and render bytes
1..20 as hex. -/
def addressToScriptHash (env : CryptoEnv) (address : String) : String :=
  ab2hexstring (((env.base58decode address).drop 1).take 20)

/-- wallet.js `Account` (privateKey is absent for public-key-only
accounts). -/
structure Account where
  privateKey : Option String
  publicKeyEncoded : String
  publicKeyHash : String
  programHash : String
  address : String
deriving DecidableEq

/-- wallet.js `getAccountFromPublicKey`: verify the key, hash it, build
the chain-line wallet script, hash that into the program hash and encode
the address.  The JS `-1` error sentinel and a `toAddress` throw are both
`none`. -/
def getAccountFromPublicKey (env : CryptoEnv) (publicKeyEncoded : String)
    (privateKey : Option String) : Option Account :=
  if verifyPublicKeyEncoded env publicKeyEncoded then
    let publicKeyHash := getHash env publicKeyEncoded
    let script := createChainLineWalletScript publicKeyEncoded
    let programHash := getHash env script
    match toAddress env (hexstring2ab programHash) with
    | some address =>
        some ⟨privateKey, publicKeyEncoded, publicKeyHash, programHash, address⟩
    | none => none
  else none

/-- wallet.js `getAccountFromPrivateKey`: a 64-hex-character key is turned
into its compressed public key and passed on (the JS `-1` sentinel is
`none`). -/
def getAccountFromPrivateKey (env : CryptoEnv) (privateKey : String) :
    Option Account :=
  if privateKey.length ≠ 64 then none
  else getAccountFromPublicKey env (ab2hexstring (env.getPublicKey privateKey))
    (some privateKey)

/-- The three results of wallet.js `getPrivateKeyFromWIF`: `-1` (basic
encoding errors), `-2` (checksum verification failure) or the private-key
hex string. -/
inductive WifResult where
  | err1
  | err2
  | ok (key : String)
deriving DecidableEq

/-- wallet.js `getPrivateKeyFromWIF`: base58-decode, check the 38-byte
layout (`0x80` prefix, `0x01` compression suffix at byte 33), verify the
4-byte double-SHA-256 checksum, and return bytes 1..32 as hex. -/
def getPrivateKeyFromWIF (env : CryptoEnv) (wif : String) : WifResult :=
  let data := env.base58decode wif
  if data.length ≠ 38 ∨ data.get? 0 ≠ some 0x80 ∨ data.get? 33 ≠ some 0x01 then
    WifResult.err1
  else
    let dataSha2 := env.sha256 (env.sha256 (ab2hexstring (data.take 34)))
    let dataShaBuffer := hexstring2ab dataSha2
    if ab2hexstring (dataShaBuffer.take 4) ≠ ab2hexstring (data.drop 34) then
      WifResult.err2
    else WifResult.ok (ab2hexstring ((data.drop 1).take 32))

/-- `BN.toArrayLike(Buffer, 'be', 32).toString('hex')`: a signature
component as 32 big-endian bytes, zero-padded, in hex. -/
def hexPad64 (n : Nat) : String :=
  let h := natToHexJS n
  String.mk (List.replicate (64 - h.length) '0') ++ h

/-- wallet.js `signatureData`: one SHA-256 over the serialized data, then
the ECDSA components `r‖s`, each as 32 big-endian bytes. -/
def signatureData (env : CryptoEnv) (data privateKey : String) : String :=
  let msgHash := env.sha256 data
  hexPad64 (env.ecSignR msgHash privateKey) ++ hexPad64 (env.ecSignS msgHash privateKey)

/-! ## Signer and transaction hash (transactions/index.js) -/

/-- transactions/index.js `signTransaction`: serialize unsigned, prefix
the 64-byte signature with `0x40`, pair it with the chain-line wallet
script of the signer's public key, and append the witness (`scripts` is
created when absent; the JS property access on the `-1` account sentinel
yields `undefined`, spliced into the script as the string
`"undefined"`). -/
def signTransaction (env : CryptoEnv) (transaction : Transaction)
    (privateKey : String) : Option Transaction := do
  let s ← serializeTransaction transaction false
  let invocationScript := "40" ++ signatureData env s privateKey
  let acctPub :=
    match getAccountFromPrivateKey env privateKey with
    | some a => a.publicKeyEncoded
    | none => "undefined"
  let verificationScript := createChainLineWalletScript acctPub
  let witness : Witness := ⟨invocationScript, verificationScript⟩
  pure { transaction with
         scripts := some (transaction.scripts.getD [] ++ [witness]) }

/-- transactions/index.js `getTransactionHash`: double SHA-256 of the
unsigned serialization, reversed for display. -/
def getTransactionHash (env : CryptoEnv) (transaction : Transaction) :
    Option String :=
  (serializeTransaction transaction false).map fun s =>
    reverseHex (env.sha256 (env.sha256 s))

/-! ## Claims on hashing, addresses, keys and signing -/

theorem string_length_data (s : String) : s.length = s.data.length := rfl

/-- C4: `getTransactionHash tx` is the byte-reversal of the double SHA-256
of the unsigned serialization, rendered as a hex string (stated with the
reversal as an actual reversal of the digest's byte list; the digest is a
lowercase hex string of even length). -/
theorem claim_C4_getTransactionHash (env : CryptoEnv) (tx : Transaction) (s : String)
    (hs : serializeTransaction tx false = some s)
    (hhex : IsLowerHex (env.sha256 (env.sha256 s)))
    (heven : 2 ∣ (env.sha256 (env.sha256 s)).length) :
    getTransactionHash env tx =
      some (ab2hexstring ((hexstring2ab (env.sha256 (env.sha256 s))).reverse)) := by
  unfold getTransactionHash
  rw [hs]
  simp only [Option.map]
  congr 1
  unfold reverseHex hexstring2ab
  exact reverseHexL_eq (env.sha256 (env.sha256 s)).data hhex heven

/-- A hash environment whose digest is the fixed hex string `"00ff"`. -/
def dummyEnvC4 : CryptoEnv :=
  ⟨fun _ => "00ff", fun _ => "", fun _ => [], fun _ => 0,
   fun _ _ => 0, fun _ _ => 0, fun _ => "", fun _ => []⟩

/-- C4 witness: the hash shape at a concrete transaction and digest
function. -/
theorem claim_C4_witness :
    getTransactionHash dummyEnvC4 txNoScripts =
      some (ab2hexstring ((hexstring2ab
        (dummyEnvC4.sha256 (dummyEnvC4.sha256 "8000000000"))).reverse)) :=
  claim_C4_getTransactionHash dummyEnvC4 txNoScripts "8000000000"
    (by decide) (by decide) (by decide)

/-- C10: `toAddress` fails exactly on inputs that are not 20 bytes, and on
a 20-byte hash returns the base58 encoding of
`23 ‖ hash ‖ SHA256(SHA256(23 ‖ hash))[0..4]` (the version byte is 23; the
double SHA-256 digest has its usual ≥ 4 bytes). -/
theorem claim_C10_toAddress (env : CryptoEnv) (h : List Nat) :
    (toAddress env h = none ↔ h.length ≠ 20) ∧
    (h.length = 20 → (∀ b ∈ h, b < 256) →
      8 ≤ (env.sha256 (env.sha256 (ab2hexstring (23 :: h)))).length →
      toAddress env h = some (env.base58encode ((23 :: h) ++
        (hexstring2ab (env.sha256 (env.sha256 (ab2hexstring (23 :: h))))).take 4))) := by
  constructor
  · unfold toAddress
    split_ifs with hc
    · simp [hc]
    · simp [hc]
  · intro hl hb hsha
    have hdata : (23 :: h).map (· % 256) = 23 :: h := by
      apply map_mod256
      intro b hb2
      rcases List.mem_cons.mp hb2 with h1 | h1
      · omega
      · exact hb b h1
    have hck : ((hexstring2ab (env.sha256 (env.sha256 (ab2hexstring (23 :: h))))).take 4).map
        (· % 256) =
        (hexstring2ab (env.sha256 (env.sha256 (ab2hexstring (23 :: h))))).take 4 :=
      map_mod256 (fun b hb2 => h2abL_lt _ b (List.mem_of_mem_take hb2))
    have hlen4 :
        ((hexstring2ab (env.sha256 (env.sha256 (ab2hexstring (23 :: h))))).take 4).length
          = 4 := by
      rw [List.length_take]
      have := h2abL_length (env.sha256 (env.sha256 (ab2hexstring (23 :: h)))).data
      unfold hexstring2ab
      rw [string_length_data] at hsha
      omega
    have hpay : addressBytes env h = (23 :: h) ++
        (hexstring2ab (env.sha256 (env.sha256 (ab2hexstring (23 :: h))))).take 4 := by
      simp only [addressBytes]
      rw [hdata, hck, hlen4]
      simp
    unfold toAddress
    rw [if_neg (by omega), hpay]

/-- An environment with an 8-hex-character digest and a fixed base58
rendering. -/
def dummyEnvC10 : CryptoEnv :=
  ⟨fun _ => "00000000", fun _ => "", fun _ => [], fun _ => 0,
   fun _ _ => 0, fun _ _ => 0, fun _ => "ADDR", fun _ => []⟩

/-- C10 witness: the success shape at a concrete 20-byte hash. -/
theorem claim_C10_witness :
    (List.replicate 20 7).length = 20 ∧
    toAddress dummyEnvC10 (List.replicate 20 7) =
      some (dummyEnvC10.base58encode ((23 :: List.replicate 20 7) ++
        (hexstring2ab (dummyEnvC10.sha256 (dummyEnvC10.sha256
          (ab2hexstring (23 :: List.replicate 20 7))))).take 4)) :=
  ⟨by decide,
    (claim_C10_toAddress dummyEnvC10 (List.replicate 20 7)).2
      (by decide) (by decide) (by decide)⟩

theorem ab2_eq_iff {l1 l2 : List Nat} (h1 : ∀ b ∈ l1, b < 256)
    (h2 : ∀ b ∈ l2, b < 256) :
    ab2hexstring l1 = ab2hexstring l2 ↔ l1 = l2 :=
  ⟨fun he => ab2_inj h1 h2 he, fun he => by rw [he]⟩

/-- C7: `getPrivateKeyFromWIF` returns the 32-byte key (bytes 1..32 of the
decoded data, in hex) exactly when the base58 decoding is 38 bytes with
byte 0 = `0x80`, byte 33 = `0x01` and last four bytes equal to the first
four bytes of the double SHA-256 of the first 34 bytes; in every other
case the result is one of the error constructors, never a key value
(the decoded bytes are bytes, i.e. below 256). -/
theorem claim_C7_wif_decode (env : CryptoEnv) (wif : String)
    (hb : ∀ b ∈ env.base58decode wif, b < 256) :
    (getPrivateKeyFromWIF env wif =
        WifResult.ok (ab2hexstring (((env.base58decode wif).drop 1).take 32)) ↔
      ((env.base58decode wif).length = 38 ∧
       (env.base58decode wif).get? 0 = some 0x80 ∧
       (env.base58decode wif).get? 33 = some 0x01 ∧
       (hexstring2ab (env.sha256 (env.sha256
          (ab2hexstring ((env.base58decode wif).take 34))))).take 4 =
         (env.base58decode wif).drop 34)) ∧
    (∀ k, getPrivateKeyFromWIF env wif = WifResult.ok k →
      k = ab2hexstring (((env.base58decode wif).drop 1).take 32)) := by
  have hcksum : ab2hexstring ((hexstring2ab (env.sha256 (env.sha256
        (ab2hexstring ((env.base58decode wif).take 34))))).take 4) =
        ab2hexstring ((env.base58decode wif).drop 34) ↔
      (hexstring2ab (env.sha256 (env.sha256
        (ab2hexstring ((env.base58decode wif).take 34))))).take 4 =
        (env.base58decode wif).drop 34 :=
    ab2_eq_iff (fun b hb2 => h2abL_lt _ b (List.mem_of_mem_take hb2))
      (fun b hb2 => hb b (List.mem_of_mem_drop hb2))
  simp only [getPrivateKeyFromWIF]
  split_ifs with hc1 hc2
  · constructor
    · constructor
      · intro he; exact absurd he (by simp)
      · intro hr
        exact absurd hc1 (by push_neg; exact ⟨hr.1, hr.2.1, hr.2.2.1⟩)
    · intro k hk; exact absurd hk (by simp)
  · constructor
    · constructor
      · intro he; exact absurd he (by simp)
      · intro hr
        exact absurd (hcksum.mpr hr.2.2.2) hc2
    · intro k hk; exact absurd hk (by simp)
  · push_neg at hc1 hc2
    constructor
    · constructor
      · intro _
        refine ⟨hc1.1, hc1.2.1, hc1.2.2, ?_⟩
        exact hcksum.mp (by simpa using hc2)
      · intro _; rfl
    · intro k hk
      simpa using hk.symm

/-- An environment whose base58 decoding is a well-formed 38-byte WIF
payload for the all-zero digest. -/
def dummyEnvC7 : CryptoEnv :=
  ⟨fun _ => String.mk (List.replicate 64 '0'), fun _ => "", fun _ => [], fun _ => 0,
   fun _ _ => 0, fun _ _ => 0, fun _ => "",
   fun _ => 128 :: (List.replicate 32 5 ++ [1, 0, 0, 0, 0])⟩

/-- C7 witness: a valid WIF layout decodes to its 32 key bytes. -/
theorem claim_C7_witness :
    (∀ b ∈ dummyEnvC7.base58decode "wif", b < 256) ∧
    getPrivateKeyFromWIF dummyEnvC7 "wif" =
      WifResult.ok (ab2hexstring (((dummyEnvC7.base58decode "wif").drop 1).take 32)) :=
  ⟨by decide, (claim_C7_wif_decode dummyEnvC7 "wif" (by decide)).1.mpr (by decide)⟩

/-- Account derivation from a valid 64-hex-character private key: the
compressed public key is derived, verified, and the account fields are the
hashes and address of the chain-line wallet script. -/
theorem getAccountFromPrivateKey_eq (env : CryptoEnv) (k : String)
    (hlen : k.length = 64)
    (hv : verifyPublicKeyEncoded env (ab2hexstring (env.getPublicKey k)) = true)
    (hph : (getHash env
      (createChainLineWalletScript (ab2hexstring (env.getPublicKey k)))).length = 40) :
    getAccountFromPrivateKey env k = some
      ⟨some k, ab2hexstring (env.getPublicKey k),
       getHash env (ab2hexstring (env.getPublicKey k)),
       getHash env (createChainLineWalletScript (ab2hexstring (env.getPublicKey k))),
       env.base58encode (addressBytes env (hexstring2ab (getHash env
         (createChainLineWalletScript (ab2hexstring (env.getPublicKey k))))))⟩ := by
  unfold getAccountFromPrivateKey
  rw [if_neg (by omega)]
  unfold getAccountFromPublicKey
  rw [hv]
  have h20 : (hexstring2ab (getHash env
      (createChainLineWalletScript (ab2hexstring (env.getPublicKey k))))).length = 20 := by
    unfold hexstring2ab
    rw [h2abL_length, ← string_length_data, hph]
  simp only [if_true]
  unfold toAddress
  rw [if_neg (by omega)]

/-- C3: `signTransaction tx k` hashes the unsigned serialization once with
SHA-256, signs that digest, and appends to the existing witness list (kept
intact, so multiple signers accumulate in signing order) the single
witness whose invocation script is `0x40 ‖ r(32B,BE) ‖ s(32B,BE)` and whose
verification script is the chain-line wallet script of the public key
derived from `k`; all other transaction fields are unchanged. -/
theorem claim_C3_sign (env : CryptoEnv) (tx : Transaction) (k s : String)
    (hser : serializeTransaction tx false = some s)
    (hlen : k.length = 64)
    (hv : verifyPublicKeyEncoded env (ab2hexstring (env.getPublicKey k)) = true)
    (hph : (getHash env
      (createChainLineWalletScript (ab2hexstring (env.getPublicKey k)))).length = 40) :
    signTransaction env tx k = some { tx with scripts := some (tx.scripts.getD [] ++
      [⟨"40" ++ hexPad64 (env.ecSignR (env.sha256 s) k) ++
          hexPad64 (env.ecSignS (env.sha256 s) k),
        createChainLineWalletScript (ab2hexstring (env.getPublicKey k))⟩]) } := by
  have ha := getAccountFromPrivateKey_eq env k hlen hv hph
  unfold signTransaction
  rw [hser]
  simp only [Option.bind_some, ha, signatureData, String.append_assoc]
  rfl

/-- A signing environment: fixed digest, fixed signature components, a
one-byte compressed public key `0x02` with even parity. -/
def dummyEnvC3 : CryptoEnv :=
  ⟨fun _ => "beef", fun _ => String.mk (List.replicate 40 '0'), fun _ => [2],
   fun _ => 0, fun _ _ => 3, fun _ _ => 3, fun _ => "A", fun _ => []⟩

/-- C3 witness: the signing shape at a concrete transaction, key and
environment. -/
theorem claim_C3_witness :
    (String.mk (List.replicate 64 '0')).length = 64 ∧
    signTransaction dummyEnvC3 txNoScripts (String.mk (List.replicate 64 '0')) =
      some { txNoScripts with scripts := some (txNoScripts.scripts.getD [] ++
        [⟨"40" ++ hexPad64 (dummyEnvC3.ecSignR (dummyEnvC3.sha256 "8000000000")
              (String.mk (List.replicate 64 '0'))) ++
            hexPad64 (dummyEnvC3.ecSignS (dummyEnvC3.sha256 "8000000000")
              (String.mk (List.replicate 64 '0'))),
          createChainLineWalletScript (ab2hexstring (dummyEnvC3.getPublicKey
            (String.mk (List.replicate 64 '0'))))⟩]) } :=
  ⟨by decide,
   claim_C3_sign dummyEnvC3 txNoScripts (String.mk (List.replicate 64 '0'))
     "8000000000" (by decide) (by decide) (by decide) (by decide)⟩

/-- C6: a derived account's `programHash` is
`RIPEMD160(SHA256(verificationScript))` of its chain-line wallet
verification script, and decoding the account's base58-check address
recovers exactly that 20-byte script hash
(`addressToScriptHash account.address = account.programHash`); the
RIPEMD-160 digest is a 40-character lowercase hex string and base58
decodes what it encoded. -/
theorem claim_C6_account (env : CryptoEnv) (pub : String) (priv : Option String)
    (hv : verifyPublicKeyEncoded env pub = true)
    (hhex : IsLowerHex (getHash env (createChainLineWalletScript pub)))
    (hlen : (getHash env (createChainLineWalletScript pub)).length = 40)
    (hb58 : env.base58decode (env.base58encode (addressBytes env
        (hexstring2ab (getHash env (createChainLineWalletScript pub))))) =
      addressBytes env (hexstring2ab (getHash env (createChainLineWalletScript pub)))) :
    ∃ acct, getAccountFromPublicKey env pub priv = some acct ∧
      acct.programHash = env.ripemd160 (env.sha256 (createChainLineWalletScript pub)) ∧
      addressToScriptHash env acct.address = acct.programHash := by
  have h20 : (hexstring2ab (getHash env (createChainLineWalletScript pub))).length = 20 := by
    unfold hexstring2ab
    rw [h2abL_length, ← string_length_data, hlen]
  refine ⟨⟨priv, pub, getHash env pub,
    getHash env (createChainLineWalletScript pub),
    env.base58encode (addressBytes env
      (hexstring2ab (getHash env (createChainLineWalletScript pub))))⟩, ?_, rfl, ?_⟩
  · unfold getAccountFromPublicKey
    rw [hv]
    simp only [if_true]
    unfold toAddress
    rw [if_neg (by omega)]
  · show addressToScriptHash env _ = _
    unfold addressToScriptHash
    rw [hb58]
    have hdata : (23 :: hexstring2ab (getHash env (createChainLineWalletScript pub))).map
        (· % 256) = 23 :: hexstring2ab (getHash env (createChainLineWalletScript pub)) := by
      apply map_mod256
      intro b hb2
      rcases List.mem_cons.mp hb2 with h1 | h1
      · omega
      · exact h2abL_lt _ b h1
    simp only [addressBytes]
    rw [hdata]
    simp only [List.cons_append, List.append_assoc, List.drop_succ_cons, List.drop_zero]
    rw [List.take_append_of_le_length (by rw [h20])]
    rw [← h20, List.take_length]
    unfold hexstring2ab
    exact ab2_h2ab (getHash env (createChainLineWalletScript pub)).data hhex
      (by rw [← string_length_data, hlen]; norm_num)

/-- An environment whose RIPEMD-160 is forty `'0'`s and whose base58
decode returns the matching 25-byte address payload. -/
def dummyEnvC6 : CryptoEnv :=
  ⟨fun _ => "00000000", fun _ => String.mk (List.replicate 40 '0'), fun _ => [],
   fun _ => 0, fun _ _ => 0, fun _ _ => 0, fun _ => "A",
   fun _ => 23 :: (List.replicate 20 0 ++ [0, 0, 0, 0])⟩

/-- C6 witness: the account round trip at a concrete public key and
environment. -/
theorem claim_C6_witness :
    verifyPublicKeyEncoded dummyEnvC6 "02" = true ∧
    ∃ acct, getAccountFromPublicKey dummyEnvC6 "02" none = some acct ∧
      acct.programHash =
        dummyEnvC6.ripemd160 (dummyEnvC6.sha256 (createChainLineWalletScript "02")) ∧
      addressToScriptHash dummyEnvC6 acct.address = acct.programHash :=
  ⟨by decide,
   claim_C6_account dummyEnvC6 "02" none (by decide) (by decide) (by decide) (by decide)⟩
